import Mathlib

/-
Shallow embedding of the TTL cache engine in src/cache/mycache.go.

Time is modelled as an explicit integer nanosecond clock passed to every
operation (the source reads time.Now().UnixNano()).  Machine integers are
modelled as Int/Nat with explicit wrapping modulo 2^w; Go's float32/float64
payloads are modelled as exact rationals (the spec's "adding delta converted
to the kind"; IEEE rounding is outside this embedding).  The Store's mutex is
modelled by an event trace: each public operation records the lock, unlock
and eviction-callback events it performs, in order, so that lock-discipline
claims can be stated and checked.
-/

namespace MyCache

/-- Durations are int64 nanosecond counts, modelled as Int. -/
def NoExpiration : Int := -1

def DefaultExpiration : Int := 0

/-- Go numeric payloads stored in an Item, one constructor per runtime type
recognised by Increment/Decrement, plus an opaque non-numeric payload. -/
inductive Obj where
  | vint (x : Int)
  | vint8 (x : Int)
  | vint16 (x : Int)
  | vint32 (x : Int)
  | vint64 (x : Int)
  | vuint (x : Nat)
  | vuintptr (x : Nat)
  | vuint8 (x : Nat)
  | vuint16 (x : Nat)
  | vuint32 (x : Nat)
  | vuint64 (x : Nat)
  | vfloat32 (x : Rat)
  | vfloat64 (x : Rat)
  | vother (tag : Nat)
deriving DecidableEq

/-- Item: stored value plus its absolute expiration timestamp (0 = never). -/
structure Item where
  object : Obj
  expiration : Int
deriving DecidableEq

/-- Item.Expired from the source: 0 means never expires, otherwise expired
iff now is strictly past the timestamp. -/
def Item.Expired (it : Item) (now : Int) : Bool :=
  if it.expiration = 0 then false else decide (it.expiration < now)

/-- The cache struct: default TTL, the entry map (association list with
unique keys), and whether an eviction callback is registered. -/
structure Cache where
  defaultExpiration : Int
  items : List (String × Item)
  onEvicted : Bool
deriving DecidableEq

/-- Lock/unlock/callback events recorded by an operation, in order. -/
inductive Ev where
  | lock
  | unlock
  | callback (k : String) (v : Obj)
deriving DecidableEq

/-- Errors returned by the fallible operations. -/
inductive CacheErr where
  | keyExists
  | keyNotFound
  | notNumeric
deriving DecidableEq

/-- Result of a fallible operation: new cache, optional error, event trace. -/
structure OpOut where
  cache : Cache
  err : Option CacheErr
  trace : List Ev
deriving DecidableEq

def mapLookup : List (String × Item) → String → Option Item
  | [], _ => none
  | p :: t, k => if p.1 = k then some p.2 else mapLookup t k

def mapErase : List (String × Item) → String → List (String × Item)
  | [], _ => []
  | p :: t, k => if p.1 = k then mapErase t k else p :: mapErase t k

def mapInsert (m : List (String × Item)) (k : String) (it : Item) :
    List (String × Item) :=
  (k, it) :: mapErase m k

/-- Expiration computation shared by Set / set: substitute the default for
the zero sentinel, then a positive duration yields now+d, otherwise 0. -/
def computeExpiration (c : Cache) (d : Int) (now : Int) : Int :=
  let d2 := if d = DefaultExpiration then c.defaultExpiration else d
  if d2 > 0 then now + d2 else 0

/-- cache.set — the unlocked insert/overwrite (source lines 61-74). -/
def setUnlocked (c : Cache) (k : String) (v : Obj) (d : Int) (now : Int) :
    Cache :=
  { c with items := mapInsert c.items k ⟨v, computeExpiration c d now⟩ }

/-- cache.Set — unconditional insert/overwrite under the write lock. -/
def Set (c : Cache) (k : String) (v : Obj) (d : Int) (now : Int) :
    Cache × List Ev :=
  (setUnlocked c k v d now, [Ev.lock, Ev.unlock])

/-- cache.SetDefault — Set with the use-default sentinel. -/
def SetDefault (c : Cache) (k : String) (v : Obj) (now : Int) :
    Cache × List Ev :=
  Set c k v DefaultExpiration now

/-- cache.get — unlocked lookup used by Add/Replace: misses when the entry
has a positive expiration that is strictly in the past. -/
def get (c : Cache) (k : String) (now : Int) : Option Obj :=
  match mapLookup c.items k with
  | none => none
  | some it =>
    if it.expiration > 0 ∧ it.expiration < now then none else some it.object

/-- cache.Get — read-locked lookup filtering by Item.Expired. -/
def Get (c : Cache) (k : String) (now : Int) : Option Obj :=
  match mapLookup c.items k with
  | none => none
  | some it => if it.Expired now then none else some it.object

/-- cache.Add — insert only if get misses; check-then-set under one lock. -/
def Add (c : Cache) (k : String) (v : Obj) (d : Int) (now : Int) :
    OpOut :=
  match get c k now with
  | some _ => ⟨c, some CacheErr.keyExists, [Ev.lock, Ev.unlock]⟩
  | none => ⟨setUnlocked c k v d now, none, [Ev.lock, Ev.unlock]⟩

/-- cache.Replace — insert only if get hits; check-then-set under one lock. -/
def Replace (c : Cache) (k : String) (v : Obj) (d : Int) (now : Int) :
    OpOut :=
  match get c k now with
  | none => ⟨c, some CacheErr.keyNotFound, [Ev.lock, Ev.unlock]⟩
  | some _ => ⟨setUnlocked c k v d now, none, [Ev.lock, Ev.unlock]⟩

/-- Low w bits of an integer read as unsigned (Go conversion to a uintW). -/
def wrapU (w : Nat) (x : Int) : Nat :=
  (x % ((2 : Int) ^ w)).toNat

/-- Low w bits of an integer read as two's-complement signed (Go intW). -/
def wrapS (w : Nat) (x : Int) : Int :=
  (x + (2 : Int) ^ (w - 1)) % (2 : Int) ^ w - (2 : Int) ^ (w - 1)

/-- The type-switch body of Increment: converts n to the payload's exact
numeric kind and adds with that kind's fixed-width wraparound (Go int,
uint and uintptr are 64-bit on the target platform); none on the default
(non-numeric) branch.  Floats add exactly (rationals). -/
def incObj : Obj → Int → Option Obj
  | Obj.vint x, n => some (Obj.vint (wrapS 64 (x + n)))
  | Obj.vint8 x, n => some (Obj.vint8 (wrapS 8 (x + wrapS 8 n)))
  | Obj.vint16 x, n => some (Obj.vint16 (wrapS 16 (x + wrapS 16 n)))
  | Obj.vint32 x, n => some (Obj.vint32 (wrapS 32 (x + wrapS 32 n)))
  | Obj.vint64 x, n => some (Obj.vint64 (wrapS 64 (x + n)))
  | Obj.vuint x, n => some (Obj.vuint (wrapU 64 ((x : Int) + (wrapU 64 n : Int))))
  | Obj.vuintptr x, n => some (Obj.vuintptr (wrapU 64 ((x : Int) + (wrapU 64 n : Int))))
  | Obj.vuint8 x, n => some (Obj.vuint8 (wrapU 8 ((x : Int) + (wrapU 8 n : Int))))
  | Obj.vuint16 x, n => some (Obj.vuint16 (wrapU 16 ((x : Int) + (wrapU 16 n : Int))))
  | Obj.vuint32 x, n => some (Obj.vuint32 (wrapU 32 ((x : Int) + (wrapU 32 n : Int))))
  | Obj.vuint64 x, n => some (Obj.vuint64 (wrapU 64 ((x : Int) + (wrapU 64 n : Int))))
  | Obj.vfloat32 x, n => some (Obj.vfloat32 (x + (n : Rat)))
  | Obj.vfloat64 x, n => some (Obj.vfloat64 (x + (n : Rat)))
  | Obj.vother _, _ => none

/-- The type-switch body of Decrement: same kinds, subtracting. -/
def decObj : Obj → Int → Option Obj
  | Obj.vint x, n => some (Obj.vint (wrapS 64 (x - n)))
  | Obj.vint8 x, n => some (Obj.vint8 (wrapS 8 (x - wrapS 8 n)))
  | Obj.vint16 x, n => some (Obj.vint16 (wrapS 16 (x - wrapS 16 n)))
  | Obj.vint32 x, n => some (Obj.vint32 (wrapS 32 (x - wrapS 32 n)))
  | Obj.vint64 x, n => some (Obj.vint64 (wrapS 64 (x - n)))
  | Obj.vuint x, n => some (Obj.vuint (wrapU 64 ((x : Int) - (wrapU 64 n : Int))))
  | Obj.vuintptr x, n => some (Obj.vuintptr (wrapU 64 ((x : Int) - (wrapU 64 n : Int))))
  | Obj.vuint8 x, n => some (Obj.vuint8 (wrapU 8 ((x : Int) - (wrapU 8 n : Int))))
  | Obj.vuint16 x, n => some (Obj.vuint16 (wrapU 16 ((x : Int) - (wrapU 16 n : Int))))
  | Obj.vuint32 x, n => some (Obj.vuint32 (wrapU 32 ((x : Int) - (wrapU 32 n : Int))))
  | Obj.vuint64 x, n => some (Obj.vuint64 (wrapU 64 ((x : Int) - (wrapU 64 n : Int))))
  | Obj.vfloat32 x, n => some (Obj.vfloat32 (x - (n : Rat)))
  | Obj.vfloat64 x, n => some (Obj.vfloat64 (x - (n : Rat)))
  | Obj.vother _, _ => none

def Obj.isNumeric : Obj → Bool
  | Obj.vother _ => false
  | _ => true

/-- Numeric-kind tag of a payload, to state kind preservation. -/
def Obj.kind : Obj → Nat
  | Obj.vint _ => 0
  | Obj.vint8 _ => 1
  | Obj.vint16 _ => 2
  | Obj.vint32 _ => 3
  | Obj.vint64 _ => 4
  | Obj.vuint _ => 5
  | Obj.vuintptr _ => 6
  | Obj.vuint8 _ => 7
  | Obj.vuint16 _ => 8
  | Obj.vuint32 _ => 9
  | Obj.vuint64 _ => 10
  | Obj.vfloat32 _ => 11
  | Obj.vfloat64 _ => 12
  | Obj.vother _ => 13

/-- cache.Increment (source lines 158-199).  The event trace is the exact
sequence of mutex operations the source performs on each path: the
not-found/expired early return and the non-numeric default branch return
WITHOUT unlocking (the source has no Unlock before those returns). -/
def Increment (c : Cache) (k : String) (n : Int) (now : Int) : OpOut :=
  match mapLookup c.items k with
  | none => ⟨c, some CacheErr.keyNotFound, [Ev.lock]⟩
  | some it =>
    if it.Expired now then ⟨c, some CacheErr.keyNotFound, [Ev.lock]⟩
    else
      match incObj it.object n with
      | none => ⟨c, some CacheErr.notNumeric, [Ev.lock]⟩
      | some o =>
        ⟨{ c with items := mapInsert c.items k ⟨o, it.expiration⟩ }, none,
          [Ev.lock, Ev.unlock]⟩

/-- cache.Decrement (source lines 201-242): unlike Increment, every return
path unlocks. -/
def Decrement (c : Cache) (k : String) (n : Int) (now : Int) : OpOut :=
  match mapLookup c.items k with
  | none => ⟨c, some CacheErr.keyNotFound, [Ev.lock, Ev.unlock]⟩
  | some it =>
    if it.Expired now then ⟨c, some CacheErr.keyNotFound, [Ev.lock, Ev.unlock]⟩
    else
      match decObj it.object n with
      | none => ⟨c, some CacheErr.notNumeric, [Ev.lock, Ev.unlock]⟩
      | some o =>
        ⟨{ c with items := mapInsert c.items k ⟨o, it.expiration⟩ }, none,
          [Ev.lock, Ev.unlock]⟩

/-- cache.delete — unlocked removal; yields the prior value exactly when an
eviction callback is registered and the key was present. -/
def deleteUnlocked (c : Cache) (k : String) : Cache × Option Obj :=
  if c.onEvicted then
    match mapLookup c.items k with
    | some it => ({ c with items := mapErase c.items k }, some it.object)
    | none => ({ c with items := mapErase c.items k }, none)
  else ({ c with items := mapErase c.items k }, none)

/-- cache.Delete — removal under the lock; the callback event (if any) is
emitted after the unlock. -/
def Delete (c : Cache) (k : String) : Cache × List Ev :=
  match deleteUnlocked c k with
  | (c2, some v) => (c2, [Ev.lock, Ev.unlock, Ev.callback k v])
  | (c2, none) => (c2, [Ev.lock, Ev.unlock])

/-- Entries of the map that are not expired at the given instant. -/
def liveEntries : List (String × Item) → Int → List (String × Item)
  | [], _ => []
  | p :: t, now =>
    if p.2.Expired now then liveEntries t now else p :: liveEntries t now

/-- Entries of the map that are expired at the given instant. -/
def expiredEntries : List (String × Item) → Int → List (String × Item)
  | [], _ => []
  | p :: t, now =>
    if p.2.Expired now then p :: expiredEntries t now else expiredEntries t now

/-- cache.DeleteExpired (source lines 271-289).  The source both defers an
Unlock AND unlocks explicitly before the callback loop, so its trace is
lock, unlock, the callbacks, then a second (deferred) unlock at return. -/
def DeleteExpired (c : Cache) (now : Int) : Cache × List Ev :=
  let evs :=
    if c.onEvicted then
      (expiredEntries c.items now).map (fun p => Ev.callback p.1 p.2.object)
    else []
  ({ c with items := liveEntries c.items now },
    [Ev.lock, Ev.unlock] ++ evs ++ [Ev.unlock])

/-- cache.OnEvicted — registers (or clears) the single eviction callback. -/
def OnEvicted (c : Cache) (f : Bool) : Cache :=
  { c with onEvicted := f }

/-- cache.Items — copies the non-expired entries into a fresh map. -/
def Items (c : Cache) (now : Int) : List (String × Item) :=
  liveEntries c.items now

/-- cache.ItemCount — raw size of the underlying map, no expiry filter. -/
def ItemCount (c : Cache) : Nat :=
  c.items.length

/-- cache.Flush — replaces the map with an empty one; no callbacks. -/
def Flush (c : Cache) : Cache × List Ev :=
  ({ c with items := [] }, [Ev.lock, Ev.unlock])

/-- newCache (source lines 375-386): a zero default TTL is replaced by -1. -/
def newCache (d : Int) (m : List (String × Item)) : Cache :=
  let d2 := if d = 0 then -1 else d
  { defaultExpiration := d2, items := m, onEvicted := false }

/-- Net lock depth after a trace: locks minus unlocks. -/
def netLock : List Ev → Int
  | [] => 0
  | Ev.lock :: t => netLock t + 1
  | Ev.unlock :: t => netLock t - 1
  | Ev.callback _ _ :: t => netLock t

/-- Checks a trace against mutex semantics from a given lock depth: an
unlock at depth zero (Go: fatal, unlock of unlocked mutex) fails. -/
def lockTraceOk : Nat → List Ev → Bool
  | _, [] => true
  | d, Ev.lock :: t => lockTraceOk (d + 1) t
  | 0, Ev.unlock :: _ => false
  | d + 1, Ev.unlock :: t => lockTraceOk d t
  | d, Ev.callback _ _ :: t => lockTraceOk d t

/-- Number of callback events in a trace. -/
def countCallbacks : List Ev → Nat
  | [] => 0
  | Ev.callback _ _ :: t => countCallbacks t + 1
  | _ :: t => countCallbacks t

/-- Spec-level mutation value: the old value plus delta converted to the
entry's exact numeric kind, with fixed-width wraparound for integer kinds
(decrement is increment by the negated delta).  Stated from the spec's words
to compare against the source-level incObj/decObj. -/
def specIncrementValue : Obj → Int → Obj
  | Obj.vint x, n => Obj.vint (wrapS 64 (x + n))
  | Obj.vint8 x, n => Obj.vint8 (wrapS 8 (x + n))
  | Obj.vint16 x, n => Obj.vint16 (wrapS 16 (x + n))
  | Obj.vint32 x, n => Obj.vint32 (wrapS 32 (x + n))
  | Obj.vint64 x, n => Obj.vint64 (wrapS 64 (x + n))
  | Obj.vuint x, n => Obj.vuint (wrapU 64 ((x : Int) + n))
  | Obj.vuintptr x, n => Obj.vuintptr (wrapU 64 ((x : Int) + n))
  | Obj.vuint8 x, n => Obj.vuint8 (wrapU 8 ((x : Int) + n))
  | Obj.vuint16 x, n => Obj.vuint16 (wrapU 16 ((x : Int) + n))
  | Obj.vuint32 x, n => Obj.vuint32 (wrapU 32 ((x : Int) + n))
  | Obj.vuint64 x, n => Obj.vuint64 (wrapU 64 ((x : Int) + n))
  | Obj.vfloat32 x, n => Obj.vfloat32 (x + (n : Rat))
  | Obj.vfloat64 x, n => Obj.vfloat64 (x + (n : Rat))
  | Obj.vother t, _ => Obj.vother t

lemma add_emod_absorb (a n m : Int) : (a + n % m) % m = (a + n) % m := by
  conv_lhs => rw [Int.add_emod, Int.emod_emod_of_dvd n dvd_rfl]
  rw [← Int.add_emod]

lemma sub_emod_absorb (a n m : Int) : (a - n % m) % m = (a - n) % m := by
  conv_lhs => rw [Int.sub_emod, Int.emod_emod_of_dvd n dvd_rfl]
  rw [← Int.sub_emod]

lemma wrapS_add (w : Nat) (a n : Int) :
    wrapS w (a + wrapS w n) = wrapS w (a + n) := by
  unfold wrapS
  have h1 : a + ((n + (2 : Int) ^ (w - 1)) % (2 : Int) ^ w - (2 : Int) ^ (w - 1))
      + (2 : Int) ^ (w - 1)
      = a + (n + (2 : Int) ^ (w - 1)) % (2 : Int) ^ w := by ring
  rw [h1, add_emod_absorb]
  have h2 : a + (n + (2 : Int) ^ (w - 1)) = a + n + (2 : Int) ^ (w - 1) := by ring
  rw [h2]

lemma wrapS_sub (w : Nat) (a n : Int) :
    wrapS w (a - wrapS w n) = wrapS w (a - n) := by
  unfold wrapS
  have h1 : a - ((n + (2 : Int) ^ (w - 1)) % (2 : Int) ^ w - (2 : Int) ^ (w - 1))
      + (2 : Int) ^ (w - 1)
      = a + 2 * (2 : Int) ^ (w - 1) - (n + (2 : Int) ^ (w - 1)) % (2 : Int) ^ w := by
    ring
  rw [h1, sub_emod_absorb]
  have h2 : a + 2 * (2 : Int) ^ (w - 1) - (n + (2 : Int) ^ (w - 1))
      = a - n + (2 : Int) ^ (w - 1) := by ring
  rw [h2]

lemma wrapU_toNat_cast (w : Nat) (n : Int) :
    ((wrapU w n : Nat) : Int) = n % (2 : Int) ^ w := by
  unfold wrapU
  exact Int.toNat_of_nonneg (Int.emod_nonneg n (by positivity))

lemma wrapU_add (w : Nat) (a n : Int) :
    wrapU w (a + (wrapU w n : Int)) = wrapU w (a + n) := by
  rw [wrapU_toNat_cast]
  unfold wrapU
  rw [add_emod_absorb]

lemma wrapU_sub (w : Nat) (a n : Int) :
    wrapU w (a - (wrapU w n : Int)) = wrapU w (a - n) := by
  rw [wrapU_toNat_cast]
  unfold wrapU
  rw [sub_emod_absorb]

/-- The source's convert-then-add equals the spec's add-then-wrap. -/
lemma incObj_eq_spec (o : Obj) (n : Int) (h : o.isNumeric = true) :
    incObj o n = some (specIncrementValue o n) := by
  cases o with
  | vint x => rfl
  | vint8 x => simp [incObj, specIncrementValue, wrapS_add]
  | vint16 x => simp [incObj, specIncrementValue, wrapS_add]
  | vint32 x => simp [incObj, specIncrementValue, wrapS_add]
  | vint64 x => rfl
  | vuint x => simp [incObj, specIncrementValue, wrapU_add]
  | vuintptr x => simp [incObj, specIncrementValue, wrapU_add]
  | vuint8 x => simp [incObj, specIncrementValue, wrapU_add]
  | vuint16 x => simp [incObj, specIncrementValue, wrapU_add]
  | vuint32 x => simp [incObj, specIncrementValue, wrapU_add]
  | vuint64 x => simp [incObj, specIncrementValue, wrapU_add]
  | vfloat32 x => rfl
  | vfloat64 x => rfl
  | vother t => simp [Obj.isNumeric] at h

/-- The source's convert-then-subtract equals the spec's wrap of old-delta. -/
lemma decObj_eq_spec (o : Obj) (n : Int) (h : o.isNumeric = true) :
    decObj o n = some (specIncrementValue o (-n)) := by
  cases o with
  | vint x => simp [decObj, specIncrementValue, sub_eq_add_neg]
  | vint8 x =>
    simp only [decObj, specIncrementValue]
    rw [wrapS_sub, sub_eq_add_neg]
  | vint16 x =>
    simp only [decObj, specIncrementValue]
    rw [wrapS_sub, sub_eq_add_neg]
  | vint32 x =>
    simp only [decObj, specIncrementValue]
    rw [wrapS_sub, sub_eq_add_neg]
  | vint64 x => simp [decObj, specIncrementValue, sub_eq_add_neg]
  | vuint x =>
    simp only [decObj, specIncrementValue]
    rw [wrapU_sub, sub_eq_add_neg]
  | vuintptr x =>
    simp only [decObj, specIncrementValue]
    rw [wrapU_sub, sub_eq_add_neg]
  | vuint8 x =>
    simp only [decObj, specIncrementValue]
    rw [wrapU_sub, sub_eq_add_neg]
  | vuint16 x =>
    simp only [decObj, specIncrementValue]
    rw [wrapU_sub, sub_eq_add_neg]
  | vuint32 x =>
    simp only [decObj, specIncrementValue]
    rw [wrapU_sub, sub_eq_add_neg]
  | vuint64 x =>
    simp only [decObj, specIncrementValue]
    rw [wrapU_sub, sub_eq_add_neg]
  | vfloat32 x => simp [decObj, specIncrementValue, sub_eq_add_neg]
  | vfloat64 x => simp [decObj, specIncrementValue, sub_eq_add_neg]
  | vother t => simp [Obj.isNumeric] at h

lemma specIncrementValue_kind (o : Obj) (n : Int) :
    (specIncrementValue o n).kind = o.kind := by
  cases o <;> rfl

lemma mapLookup_insert (m : List (String × Item)) (k : String) (it : Item) :
    mapLookup (mapInsert m k it) k = some it := by
  simp [mapInsert, mapLookup]

lemma mapLookup_mem (m : List (String × Item)) (k : String) (it : Item)
    (h : mapLookup m k = some it) : (k, it) ∈ m := by
  induction m with
  | nil => simp [mapLookup] at h
  | cons p t ih =>
    simp only [mapLookup] at h
    by_cases hk : p.1 = k
    · rw [if_pos hk] at h
      have h2 : p.2 = it := Option.some.inj h
      have hp : p = (k, it) := Prod.ext hk h2
      rw [hp]
      exact List.mem_cons_self _ _
    · rw [if_neg hk] at h
      exact List.mem_cons_of_mem _ (ih h)

/-- cache.get misses exactly when the key is absent or the entry is expired
in the Item.Expired sense, provided expirations are non-negative (the only
values the write paths ever produce). -/
lemma get_none_iff (c : Cache) (k : String) (now : Int)
    (hwf : ∀ p ∈ c.items, 0 ≤ p.2.expiration) :
    get c k now = none ↔
      (mapLookup c.items k = none ∨
       ∃ it, mapLookup c.items k = some it ∧ it.Expired now = true) := by
  rcases hm : mapLookup c.items k with _ | it
  · simp [get, hm]
  · have h0 : 0 ≤ it.expiration := hwf _ (mapLookup_mem _ _ _ hm)
    simp only [get, hm, Item.Expired]
    by_cases hz : it.expiration = 0
    · simp [hz]
    · simp [hz]
      omega

lemma get_some_of_not_expired (c : Cache) (k : String) (now : Int) (it : Item)
    (hlk : mapLookup c.items k = some it) (h : it.Expired now = false) :
    get c k now = some it.object := by
  have hc : ¬(it.expiration > 0 ∧ it.expiration < now) := by
    rw [Item.Expired] at h
    by_cases h0 : it.expiration = 0
    · intro hand
      omega
    · rw [if_neg h0] at h
      simp only [decide_eq_false_iff_not] at h
      intro hand
      exact h hand.2
  simp [get, hlk, hc]

lemma Get_some_of_not_expired (c : Cache) (k : String) (now : Int) (it : Item)
    (hlk : mapLookup c.items k = some it) (h : it.Expired now = false) :
    Get c k now = some it.object := by
  simp [Get, hlk, h]

lemma Get_none_of_expired (c : Cache) (k : String) (now : Int) (it : Item)
    (hlk : mapLookup c.items k = some it) (h : it.Expired now = true) :
    Get c k now = none := by
  simp [Get, hlk, h]

lemma incObj_none_of_not_numeric (o : Obj) (n : Int) (h : o.isNumeric = false) :
    incObj o n = none := by
  cases o <;> first | rfl | simp [Obj.isNumeric] at h

lemma decObj_none_of_not_numeric (o : Obj) (n : Int) (h : o.isNumeric = false) :
    decObj o n = none := by
  cases o <;> first | rfl | simp [Obj.isNumeric] at h

/-- C1: the claim says every return path of Increment and Decrement releases
the lock exactly once.  The code violates this: Increment on a missing key
(and on a non-numeric value) returns with the lock still held — its trace is
just a lock with no unlock, net depth 1 — so a second Increment would block
forever; Decrement, by contrast, unlocks on the same path. -/
theorem C1_increment_leaks_lock :
    (Increment (newCache 0 []) "k" 1 0).err = some CacheErr.keyNotFound ∧
    (Increment (newCache 0 []) "k" 1 0).trace = [Ev.lock] ∧
    netLock (Increment (newCache 0 []) "k" 1 0).trace = 1 ∧
    (Increment
      { defaultExpiration := -1, items := [("s", ⟨Obj.vother 0, 0⟩)],
        onEvicted := false } "s" 1 0).trace = [Ev.lock] ∧
    (Decrement (newCache 0 []) "k" 1 0).err = some CacheErr.keyNotFound ∧
    (Decrement (newCache 0 []) "k" 1 0).trace = [Ev.lock, Ev.unlock] := by
  decide

/-- C2: the claim says DeleteExpired releases the lock exactly once and never
unlocks an already-unlocked lock.  The code both defers an unlock and unlocks
explicitly before the callback loop, so every call unlocks twice: the trace
ends with a second unlock at depth zero, which mutex semantics reject (Go
fatals with an unlock-of-unlocked-mutex error).  The removal itself and the
callback placement between the two unlocks are as described. -/
theorem C2_deleteExpired_double_unlock :
    (DeleteExpired
      { defaultExpiration := -1, items := [("x", ⟨Obj.vint 5, 10⟩)],
        onEvicted := true } 99).2
      = [Ev.lock, Ev.unlock, Ev.callback "x" (Obj.vint 5), Ev.unlock] ∧
    lockTraceOk 0 (DeleteExpired
      { defaultExpiration := -1, items := [("x", ⟨Obj.vint 5, 10⟩)],
        onEvicted := true } 99).2 = false ∧
    (DeleteExpired
      { defaultExpiration := -1, items := [("x", ⟨Obj.vint 5, 10⟩)],
        onEvicted := true } 99).1.items = [] ∧
    (DeleteExpired (newCache 0 []) 0).2 = [Ev.lock, Ev.unlock, Ev.unlock] := by
  decide

/-- C5: on a successful Increment (resp. Decrement) the stored value becomes
the old value plus (resp. minus) delta converted to the entry's exact numeric
kind, with fixed-width wraparound for the integer kinds, and both the numeric
kind and the expiration timestamp of the entry are unchanged. -/
theorem C5_mutation_value_kind_expiry (c : Cache) (k : String) (it : Item)
    (n now : Int)
    (hfound : mapLookup c.items k = some it)
    (hlive : it.Expired now = false)
    (hnum : it.object.isNumeric = true) :
    (Increment c k n now).err = none ∧
    mapLookup (Increment c k n now).cache.items k
      = some ⟨specIncrementValue it.object n, it.expiration⟩ ∧
    (Decrement c k n now).err = none ∧
    mapLookup (Decrement c k n now).cache.items k
      = some ⟨specIncrementValue it.object (-n), it.expiration⟩ ∧
    (specIncrementValue it.object n).kind = it.object.kind ∧
    (specIncrementValue it.object (-n)).kind = it.object.kind := by
  have hinc := incObj_eq_spec it.object n hnum
  have hdec := decObj_eq_spec it.object n hnum
  refine ⟨?_, ?_, ?_, ?_, specIncrementValue_kind _ _, specIncrementValue_kind _ _⟩ <;>
    simp [Increment, Decrement, hfound, hlive, hinc, hdec, mapLookup_insert]

/-- C5 witness: an int8 entry holding 100 incremented by 30 wraps to -126,
stays an int8 and keeps its expiration timestamp. -/
theorem C5_mutation_witness :
    (Increment ⟨-1, [("n8", ⟨Obj.vint8 100, 7⟩)], false⟩ "n8" 30 3).err = none ∧
    mapLookup (Increment ⟨-1, [("n8", ⟨Obj.vint8 100, 7⟩)], false⟩ "n8" 30 3).cache.items "n8"
      = some ⟨specIncrementValue (Obj.vint8 100) 30, 7⟩ ∧
    (Decrement ⟨-1, [("n8", ⟨Obj.vint8 100, 7⟩)], false⟩ "n8" 30 3).err = none ∧
    mapLookup (Decrement ⟨-1, [("n8", ⟨Obj.vint8 100, 7⟩)], false⟩ "n8" 30 3).cache.items "n8"
      = some ⟨specIncrementValue (Obj.vint8 100) (-30), 7⟩ ∧
    (specIncrementValue (Obj.vint8 100) 30).kind = (Obj.vint8 100).kind ∧
    (specIncrementValue (Obj.vint8 100) (-30)).kind = (Obj.vint8 100).kind :=
  C5_mutation_value_kind_expiry ⟨-1, [("n8", ⟨Obj.vint8 100, 7⟩)], false⟩ "n8"
    ⟨Obj.vint8 100, 7⟩ 30 3 (by decide) (by decide) (by decide)

/-- C4: Add inserts iff the key is absent or its entry has expired, fails
with KeyAlreadyExists leaving the map unchanged otherwise (the check and the
insert share one lock acquisition in the source), and after a successful
Add(k,v1) a second Add(k,v2) before expiry fails while Get(k) still yields
v1. -/
theorem C4_add_iff_atomic (c : Cache) (k : String) (v1 v2 : Obj)
    (d1 d2 : Int) (t0 t1 : Int)
    (hwf : ∀ p ∈ c.items, 0 ≤ p.2.expiration) :
    ((Add c k v1 d1 t0).err = none ↔
      (mapLookup c.items k = none ∨
       ∃ it, mapLookup c.items k = some it ∧ it.Expired t0 = true)) ∧
    ((Add c k v1 d1 t0).err ≠ none →
      (Add c k v1 d1 t0).err = some CacheErr.keyExists ∧
      (Add c k v1 d1 t0).cache = c) ∧
    ((Add c k v1 d1 t0).err = none →
      Item.Expired ⟨v1, computeExpiration c d1 t0⟩ t1 = false →
      (Add (Add c k v1 d1 t0).cache k v2 d2 t1).err = some CacheErr.keyExists ∧
      Get (Add (Add c k v1 d1 t0).cache k v2 d2 t1).cache k t1 = some v1) := by
  have hiff := get_none_iff c k t0 hwf
  rcases hg : get c k t0 with _ | o
  · refine ⟨by simp [Add, hg, hiff.mp hg], by simp [Add, hg], ?_⟩
    intro _ hexp
    have hlk : mapLookup (setUnlocked c k v1 d1 t0).items k
        = some ⟨v1, computeExpiration c d1 t0⟩ := by
      simp [setUnlocked, mapLookup_insert]
    have hget2 := get_some_of_not_expired (setUnlocked c k v1 d1 t0) k t1 _
      hlk hexp
    have hGet2 := Get_some_of_not_expired (setUnlocked c k v1 d1 t0) k t1 _
      hlk hexp
    refine ⟨?_, ?_⟩ <;> simp [Add, hg, hget2, hGet2]
  · refine ⟨?_, by simp [Add, hg], by simp [Add, hg]⟩
    constructor
    · intro h
      simp [Add, hg] at h
    · intro h
      have hnone := hiff.mpr h
      rw [hnone] at hg
      exact Option.noConfusion hg

/-- C4 witness: on an empty store, Add("a",1,ttl 5) at time 0 succeeds, a
second Add at time 3 fails with KeyAlreadyExists and Get still returns 1. -/
theorem C4_add_witness :
    ((Add (newCache 0 []) "a" (Obj.vint 1) 5 0).err = none ↔
      (mapLookup (newCache 0 []).items "a" = none ∨
       ∃ it, mapLookup (newCache 0 []).items "a" = some it ∧
         it.Expired 0 = true)) ∧
    ((Add (newCache 0 []) "a" (Obj.vint 1) 5 0).err ≠ none →
      (Add (newCache 0 []) "a" (Obj.vint 1) 5 0).err = some CacheErr.keyExists ∧
      (Add (newCache 0 []) "a" (Obj.vint 1) 5 0).cache = newCache 0 []) ∧
    ((Add (newCache 0 []) "a" (Obj.vint 1) 5 0).err = none →
      Item.Expired ⟨Obj.vint 1, computeExpiration (newCache 0 []) 5 0⟩ 3 = false →
      (Add (Add (newCache 0 []) "a" (Obj.vint 1) 5 0).cache "a" (Obj.vint 2) 5 3).err
        = some CacheErr.keyExists ∧
      Get (Add (Add (newCache 0 []) "a" (Obj.vint 1) 5 0).cache "a" (Obj.vint 2) 5 3).cache
        "a" 3 = some (Obj.vint 1)) :=
  C4_add_iff_atomic (newCache 0 []) "a" (Obj.vint 1) (Obj.vint 2) 5 5 0 3
    (by decide)

/-- C6: after Set with a positive ttl, Get hits at any instant not after the
computed expiry and misses strictly after it; after Set with the negative
never-expire sentinel Get hits at any instant; a never-written key misses. -/
theorem C6_set_get_expiry (c : Cache) (k k2 : String) (v : Obj)
    (d d0 : Int) (t0 t u : Int) (hd : 0 < d) (ht0 : 0 ≤ t0) :
    (t ≤ t0 + d → Get (Set c k v d t0).1 k t = some v) ∧
    (t0 + d < t → Get (Set c k v d t0).1 k t = none) ∧
    Get (Set c k v NoExpiration t0).1 k u = some v ∧
    Get (newCache d0 []) k2 u = none := by
  have hd0 : ¬(d = DefaultExpiration) := by
    simp only [DefaultExpiration]
    omega
  have he : computeExpiration c d t0 = t0 + d := by
    simp [computeExpiration, hd0, hd]
  have hlk : mapLookup (Set c k v d t0).1.items k = some ⟨v, t0 + d⟩ := by
    simp [Set, setUnlocked, he, mapLookup_insert]
  have he2 : computeExpiration c NoExpiration t0 = 0 := by
    simp [computeExpiration, NoExpiration, DefaultExpiration]
  have hlk2 : mapLookup (Set c k v NoExpiration t0).1.items k = some ⟨v, 0⟩ := by
    simp [Set, setUnlocked, he2, mapLookup_insert]
  refine ⟨?_, ?_, ?_, ?_⟩
  · intro ht
    have hexp : Item.Expired ⟨v, t0 + d⟩ t = false := by
      have hne : ¬(t0 + d = 0) := by omega
      simp only [Item.Expired, hne, if_false, decide_eq_false_iff_not]
      omega
    exact Get_some_of_not_expired _ _ _ _ hlk hexp
  · intro ht
    have hexp : Item.Expired ⟨v, t0 + d⟩ t = true := by
      have hne : ¬(t0 + d = 0) := by omega
      simp only [Item.Expired, hne, if_false, decide_eq_true_eq]
      omega
    exact Get_none_of_expired _ _ _ _ hlk hexp
  · exact Get_some_of_not_expired _ _ _ _ hlk2 rfl
  · simp [Get, newCache, mapLookup]

/-- C6 witness: Set("a",7,ttl 10) at time 0 hits at time 10 and misses at
time 11; Set with the -1 sentinel still hits at time 1000000; a key never
written into a fresh store misses. -/
theorem C6_set_get_witness :
    Get (Set (newCache 0 []) "a" (Obj.vint 7) 10 0).1 "a" 10 = some (Obj.vint 7) ∧
    Get (Set (newCache 0 []) "a" (Obj.vint 7) 10 0).1 "a" 11 = none ∧
    Get (Set (newCache 0 []) "a" (Obj.vint 7) NoExpiration 0).1 "a" 1000000
      = some (Obj.vint 7) ∧
    Get (newCache 0 []) "b" 1000000 = none := by
  have h10 := C6_set_get_expiry (newCache 0 []) "a" "b" (Obj.vint 7) 10 0 0 10
    1000000 (by decide) (by decide)
  have h11 := C6_set_get_expiry (newCache 0 []) "a" "b" (Obj.vint 7) 10 0 0 11
    1000000 (by decide) (by decide)
  exact ⟨h10.1 (by decide), h11.2.1 (by decide), h10.2.2.1, h10.2.2.2⟩

/-- C7: failed operations are no-ops on the map: Replace on an absent or
expired key fails with KeyNotFound leaving the cache unchanged, and
Increment/Decrement on a non-numeric stored value fail with NotNumeric
leaving the cache unchanged (all errors are ordinary returned values in the
embedding, as in the source). -/
theorem C7_failed_ops_noop (c : Cache) (k1 k2 : String) (v : Obj)
    (d : Int) (n now : Int)
    (hwf : ∀ p ∈ c.items, 0 ≤ p.2.expiration) :
    ((mapLookup c.items k1 = none ∨
      ∃ it, mapLookup c.items k1 = some it ∧ it.Expired now = true) →
      (Replace c k1 v d now).err = some CacheErr.keyNotFound ∧
      (Replace c k1 v d now).cache = c) ∧
    (∀ it, mapLookup c.items k2 = some it → it.Expired now = false →
      it.object.isNumeric = false →
      (Increment c k2 n now).err = some CacheErr.notNumeric ∧
      (Increment c k2 n now).cache = c ∧
      (Decrement c k2 n now).err = some CacheErr.notNumeric ∧
      (Decrement c k2 n now).cache = c) := by
  constructor
  · intro h
    have hg : get c k1 now = none := (get_none_iff c k1 now hwf).mpr h
    simp [Replace, hg]
  · intro it hlk hlive hnotnum
    have hio := incObj_none_of_not_numeric it.object n hnotnum
    have hdo := decObj_none_of_not_numeric it.object n hnotnum
    refine ⟨?_, ?_, ?_, ?_⟩ <;> simp [Increment, Decrement, hlk, hlive, hio, hdo]

/-- C7 witness: Replace on a missing key and Increment/Decrement on a
string-like (non-numeric) value fail without touching the map. -/
theorem C7_failed_ops_witness :
    ((mapLookup (⟨-1, [("s", ⟨Obj.vother 4, 0⟩)], false⟩ : Cache).items "z" = none ∨
      ∃ it, mapLookup (⟨-1, [("s", ⟨Obj.vother 4, 0⟩)], false⟩ : Cache).items "z"
        = some it ∧ it.Expired 5 = true) →
      (Replace ⟨-1, [("s", ⟨Obj.vother 4, 0⟩)], false⟩ "z" (Obj.vint 1) 2 5).err
        = some CacheErr.keyNotFound ∧
      (Replace ⟨-1, [("s", ⟨Obj.vother 4, 0⟩)], false⟩ "z" (Obj.vint 1) 2 5).cache
        = ⟨-1, [("s", ⟨Obj.vother 4, 0⟩)], false⟩) ∧
    (∀ it, mapLookup (⟨-1, [("s", ⟨Obj.vother 4, 0⟩)], false⟩ : Cache).items "s"
        = some it → it.Expired 5 = false → it.object.isNumeric = false →
      (Increment ⟨-1, [("s", ⟨Obj.vother 4, 0⟩)], false⟩ "s" 3 5).err
        = some CacheErr.notNumeric ∧
      (Increment ⟨-1, [("s", ⟨Obj.vother 4, 0⟩)], false⟩ "s" 3 5).cache
        = ⟨-1, [("s", ⟨Obj.vother 4, 0⟩)], false⟩ ∧
      (Decrement ⟨-1, [("s", ⟨Obj.vother 4, 0⟩)], false⟩ "s" 3 5).err
        = some CacheErr.notNumeric ∧
      (Decrement ⟨-1, [("s", ⟨Obj.vother 4, 0⟩)], false⟩ "s" 3 5).cache
        = ⟨-1, [("s", ⟨Obj.vother 4, 0⟩)], false⟩) :=
  C7_failed_ops_noop ⟨-1, [("s", ⟨Obj.vother 4, 0⟩)], false⟩ "z" "s"
    (Obj.vint 1) 2 3 5 (by decide)

/-- C3: with a callback registered, Delete of a key present in the map emits
exactly one callback event, carrying that key and its prior value, strictly
after the unlock event; Set, Flush, Add and Replace never emit a callback
event (in particular not on Add/Replace failure or Set overwrite). -/
theorem C3_delete_callback_once (c : Cache) (k : String) (it : Item)
    (hreg : c.onEvicted = true) (hfound : mapLookup c.items k = some it) :
    (Delete c k).2 = [Ev.lock, Ev.unlock, Ev.callback k it.object] ∧
    (∀ k2 v d now, countCallbacks (Set c k2 v d now).2 = 0) ∧
    countCallbacks (Flush c).2 = 0 ∧
    (∀ k2 v d now, countCallbacks (Add c k2 v d now).trace = 0) ∧
    (∀ k2 v d now, countCallbacks (Replace c k2 v d now).trace = 0) := by
  refine ⟨?_, ?_, rfl, ?_, ?_⟩
  · simp [Delete, deleteUnlocked, hreg, hfound]
  · intro k2 v d now
    rfl
  · intro k2 v d now
    rcases hg : get c k2 now with _ | o <;> simp [Add, hg, countCallbacks]
  · intro k2 v d now
    rcases hg : get c k2 now with _ | o <;> simp [Replace, hg, countCallbacks]

/-- C3 witness: deleting the live key "a" holding 7 with a callback
registered emits exactly one callback event, after the unlock. -/
theorem C3_delete_callback_witness :
    (Delete ⟨-1, [("a", ⟨Obj.vint 7, 0⟩)], true⟩ "a").2
      = [Ev.lock, Ev.unlock, Ev.callback "a" (Obj.vint 7)] ∧
    (∀ k2 v d now,
      countCallbacks (Set ⟨-1, [("a", ⟨Obj.vint 7, 0⟩)], true⟩ k2 v d now).2 = 0) ∧
    countCallbacks (Flush ⟨-1, [("a", ⟨Obj.vint 7, 0⟩)], true⟩).2 = 0 ∧
    (∀ k2 v d now,
      countCallbacks (Add ⟨-1, [("a", ⟨Obj.vint 7, 0⟩)], true⟩ k2 v d now).trace = 0) ∧
    (∀ k2 v d now,
      countCallbacks (Replace ⟨-1, [("a", ⟨Obj.vint 7, 0⟩)], true⟩ k2 v d now).trace = 0) :=
  C3_delete_callback_once ⟨-1, [("a", ⟨Obj.vint 7, 0⟩)], true⟩ "a"
    ⟨Obj.vint 7, 0⟩ (by decide) (by decide)

lemma liveEntries_not_expired (m : List (String × Item)) (now : Int) :
    ∀ p ∈ liveEntries m now, p.2.Expired now = false := by
  induction m with
  | nil => simp [liveEntries]
  | cons q t ih =>
    intro p hp
    rw [liveEntries] at hp
    by_cases hq : q.2.Expired now = true
    · rw [if_pos hq] at hp
      exact ih p hp
    · rw [if_neg hq] at hp
      simp only [Bool.not_eq_true] at hq
      rcases List.mem_cons.mp hp with h | h
      · rw [h]
        exact hq
      · exact ih p h

lemma liveEntries_sub (m : List (String × Item)) (now : Int) :
    ∀ p ∈ liveEntries m now, p ∈ m := by
  induction m with
  | nil => simp [liveEntries]
  | cons q t ih =>
    intro p hp
    rw [liveEntries] at hp
    by_cases hq : q.2.Expired now = true
    · rw [if_pos hq] at hp
      exact List.mem_cons_of_mem q (ih p hp)
    · rw [if_neg hq] at hp
      rcases List.mem_cons.mp hp with h | h
      · rw [h]
        exact List.mem_cons_self q t
      · exact List.mem_cons_of_mem q (ih p h)

lemma mapLookup_none_of_not_mem (m : List (String × Item)) (k : String)
    (h : ∀ p ∈ m, p.1 ≠ k) : mapLookup m k = none := by
  induction m with
  | nil => rfl
  | cons q t ih =>
    rw [mapLookup, if_neg (h q (List.mem_cons_self q t))]
    exact ih (fun p hp => h p (List.mem_cons_of_mem q hp))

/-- With unique keys, a lookup in the copy built by Items hits exactly the
unexpired entries of the underlying map. -/
lemma mapLookup_liveEntries (m : List (String × Item)) (now : Int)
    (k : String) (it : Item) (hnd : (m.map Prod.fst).Nodup) :
    mapLookup (liveEntries m now) k = some it ↔
      (mapLookup m k = some it ∧ it.Expired now = false) := by
  induction m with
  | nil => simp [liveEntries, mapLookup]
  | cons q t ih =>
    rw [List.map_cons, List.nodup_cons] at hnd
    obtain ⟨hq1, hnd2⟩ := hnd
    have ihm := ih hnd2
    by_cases hq : q.2.Expired now = true
    · rw [liveEntries, if_pos hq]
      by_cases hqk : q.1 = k
      · subst hqk
        have hnone : mapLookup (liveEntries t now) q.1 = none := by
          apply mapLookup_none_of_not_mem
          intro p hp hcontra
          exact hq1 (List.mem_map.mpr ⟨p, liveEntries_sub t now p hp, hcontra⟩)
        rw [hnone, mapLookup, if_pos rfl]
        constructor
        · intro h
          exact Option.noConfusion h
        · rintro ⟨h1, h2⟩
          obtain rfl : q.2 = it := Option.some.inj h1
          rw [hq] at h2
          exact Bool.noConfusion h2
      · rw [mapLookup, if_neg hqk]
        exact ihm
    · rw [liveEntries, if_neg hq]
      simp only [Bool.not_eq_true] at hq
      by_cases hqk : q.1 = k
      · rw [mapLookup, if_pos hqk, mapLookup, if_pos hqk]
        constructor
        · intro h1
          obtain rfl : q.2 = it := Option.some.inj h1
          exact ⟨rfl, hq⟩
        · exact fun h => h.1
      · rw [mapLookup, if_neg hqk, mapLookup, if_neg hqk]
        exact ihm

/-- C8: Items yields a fresh map (built entry by entry in the source, so
mutating it cannot touch the Store) whose lookups hit exactly the entries of
the underlying map that are unexpired at the time of the call; it never
contains an expired entry. -/
theorem C8_items_only_live (c : Cache) (now : Int) (k : String) (it : Item)
    (hnd : (c.items.map Prod.fst).Nodup) :
    (mapLookup (Items c now) k = some it ↔
      (mapLookup c.items k = some it ∧ it.Expired now = false)) ∧
    (∀ p ∈ Items c now, p.2.Expired now = false) :=
  ⟨mapLookup_liveEntries c.items now k it hnd,
   liveEntries_not_expired c.items now⟩

/-- C8 witness: with one live and one expired entry, Items contains the live
one and lookup agrees; no member of the copy is expired. -/
theorem C8_items_witness :
    (mapLookup (Items ⟨-1, [("a", ⟨Obj.vint 1, 5⟩), ("b", ⟨Obj.vint 2, 0⟩)], false⟩ 10) "b"
        = some ⟨Obj.vint 2, 0⟩ ↔
      (mapLookup (⟨-1, [("a", ⟨Obj.vint 1, 5⟩), ("b", ⟨Obj.vint 2, 0⟩)], false⟩ : Cache).items "b"
        = some ⟨Obj.vint 2, 0⟩ ∧
       Item.Expired ⟨Obj.vint 2, 0⟩ 10 = false)) ∧
    (∀ p ∈ Items ⟨-1, [("a", ⟨Obj.vint 1, 5⟩), ("b", ⟨Obj.vint 2, 0⟩)], false⟩ 10,
      p.2.Expired 10 = false) :=
  C8_items_only_live ⟨-1, [("a", ⟨Obj.vint 1, 5⟩), ("b", ⟨Obj.vint 2, 0⟩)], false⟩
    10 "b" ⟨Obj.vint 2, 0⟩ (by decide)

lemma length_live_add_expired (m : List (String × Item)) (now : Int) :
    m.length = (liveEntries m now).length + (expiredEntries m now).length := by
  induction m with
  | nil => rfl
  | cons q t ih =>
    rw [liveEntries, expiredEntries]
    by_cases hq : q.2.Expired now = true
    · rw [if_pos hq, if_pos hq]
      simp only [List.length_cons, ih]
      omega
    · rw [if_neg hq, if_neg hq]
      simp only [List.length_cons, ih]
      omega

/-- C9: ItemCount is the raw size of the underlying map — the live entries
(what Items reports) plus the expired-but-not-yet-swept entries — with no
expiration filtering. -/
theorem C9_itemcount_includes_expired (c : Cache) (now : Int) :
    ItemCount c = (Items c now).length + (expiredEntries c.items now).length :=
  length_live_add_expired c.items now

/-- C10: constructing a store with a configured default TTL of exactly zero
silently turns the default into the never-expire sentinel -1, so Set with
the use-default sentinel and SetDefault both produce entries that Get still
returns after arbitrarily long elapsed time. -/
theorem C10_zero_default_never_expires (m : List (String × Item)) (k : String)
    (v : Obj) (t0 u : Int) :
    (newCache 0 m).defaultExpiration = NoExpiration ∧
    Get (Set (newCache 0 m) k v DefaultExpiration t0).1 k u = some v ∧
    Get (SetDefault (newCache 0 m) k v t0).1 k u = some v := by
  have he : computeExpiration (newCache 0 m) DefaultExpiration t0 = 0 := by
    simp [computeExpiration, DefaultExpiration, newCache]
  have hlk : mapLookup (Set (newCache 0 m) k v DefaultExpiration t0).1.items k
      = some ⟨v, 0⟩ := by
    simp [Set, setUnlocked, he, mapLookup_insert]
  refine ⟨rfl, ?_, ?_⟩
  · exact Get_some_of_not_expired _ _ _ _ hlk rfl
  · exact Get_some_of_not_expired _ _ _ _ hlk rfl

end MyCache
